import Mathlib

/-!
Shallow Lean embedding of the Luma smart-helmet ESP32 firmware
(`src/IoT/Luma App/esp32_firmware/src/main.cpp`, `include/classifier.h`,
and `src/Sensing/IoT/Luma App/esp32_firmware/include/feature_extraction.h`).

Modelling conventions:
* C `float` values are embedded as rationals (`ℚ`); all the properties
  verified here concern comparisons, guards and control flow, for which the
  exact real-valued thresholds are what matters.  `sqrtf` has no exact
  rational counterpart, so functions that consume a square root either take
  its value as an explicit argument (as `calculateSkewness`/`calculateKurtosis`
  already do in the C source) or are parametrised by an abstract square-root
  function `sqrtF`.
* `unsigned long` millisecond timestamps are embedded as `Nat`; the C
  expression `now - last` is truncated `Nat` subtraction, which agrees with
  the 32-bit unsigned subtraction for the monotone timestamps the firmware
  produces (before the ~49-day wrap, which is out of scope here).
* The per-tick mutable globals of `main.cpp` (buffer index/full flag, the
  five cooldown timestamps, the LED pattern state, the two `lastMag`
  trackers) are collected in one record `St`; each C code block becomes an
  explicit state-passing function.  Pixel rendering and the animation-step
  bookkeeping inside `updateLEDs` are not modelled (no claim concerns them);
  the pattern-level transitions are.
* `sendEventNotification` returns the BLE event message it notifies, or
  `none` when no device is connected (mirroring its early return).
-/

namespace Luma

/-- Event class ordinals from `classifier.h`. -/
def CLASS_BRAKE : Nat := 0

/-- Event class ordinal of `bump` from `classifier.h`. -/
def CLASS_BUMP : Nat := 1

/-- Event class ordinal of `crash` from `classifier.h`. -/
def CLASS_CRASH : Nat := 2

/-- Event class ordinal of `normal` from `classifier.h`. -/
def CLASS_NORMAL : Nat := 3

/-- Event class ordinal of `turn` from `classifier.h`. -/
def CLASS_TURN : Nat := 4

/-- `N_FEATURES` from `classifier.h`. -/
def N_FEATURES : Nat := 61

/-- `enum LEDPattern` from `main.cpp`. -/
inductive LEDPattern where
  | off
  | brake
  | crash
  | turnLeft
  | turnRight
  | party
  | connectedGreen
  | armedRed
  | idle
deriving DecidableEq, Repr

/-- An event notification written to the BLE event characteristic by
`sendEventNotification(cls, conf)`: a class ordinal and a confidence. -/
structure EventMsg where
  cls : Nat
  conf : ℚ
deriving DecidableEq, Repr

/-- The mutable globals of `main.cpp` that the control flow reads and writes:
buffer bookkeeping, the five cooldown timestamps, the LED pattern state and
the two last-magnitude trackers (`lastAccelMag` used by `detectEventTrigger`,
and the `static float lastMagLocal` inside `loop`). -/
structure St where
  bufferIndex : Nat
  bufferFull : Bool
  lastAccelMag : ℚ
  lastMagLocal : ℚ
  lastLocalBrakeMs : Nat
  lastLocalCrashMs : Nat
  lastMLBrakeMs : Nat
  lastMLCrashMs : Nat
  lastMLAttemptMs : Nat
  currentPattern : LEDPattern
  savedPattern : LEDPattern
  brakeEndTime : Nat
  connectGreenUntil : Nat
  deviceConnected : Bool
deriving Repr

/-- The boot-time values of the globals of `main.cpp`. -/
def st0 : St :=
  { bufferIndex := 0
    bufferFull := false
    lastAccelMag := 1
    lastMagLocal := 1
    lastLocalBrakeMs := 0
    lastLocalCrashMs := 0
    lastMLBrakeMs := 0
    lastMLCrashMs := 0
    lastMLAttemptMs := 0
    currentPattern := .idle
    savedPattern := .idle
    brakeEndTime := 0
    connectGreenUntil := 0
    deviceConnected := false }

/-- `sendEventNotification(cls, conf)`: returns early (sends nothing) when no
device is connected, otherwise notifies the 5-byte event frame, modelled as
the `EventMsg` it carries. -/
def sendEventNotification (st : St) (cls : Nat) (conf : ℚ) : Option EventMsg :=
  if st.deviceConnected then some ⟨cls, conf⟩ else none

/-- `confFromJerk(v, lo, hi)`: clamped linear map of `v` from `[lo, hi]`
onto `[0.2, 1.0]`. -/
def confFromJerk (v lo hi : ℚ) : ℚ :=
  let t := (v - lo) / (hi - lo)
  let t := if t < 0 then 0 else t
  let t := if t > 1 then 1 else t
  1/5 + 4/5 * t

/-- The confidence computed by `reportLocalCrash(jerk_gps, accel_mag)`:
the larger of the jerk-based and magnitude-based clamped scores. -/
def reportLocalCrashConf (jerk accelMag : ℚ) : ℚ :=
  let c1 := confFromJerk jerk 40 90
  let c2 := confFromJerk accelMag 3 5
  if c1 > c2 then c1 else c2

/-- `fireBrakePattern(ms)`: saves the restore pattern, shows the brake
pattern and sets its end time `ms` after the current `millis()` value
(`tNow`). -/
def fireBrakePattern (st : St) (ms tNow : Nat) : St :=
  { st with
    savedPattern := if st.deviceConnected then .armedRed else .idle
    currentPattern := .brake
    brakeEndTime := tNow + ms }

/-- `fireCrashPattern()`: saves the restore pattern and shows the crash
pattern (the crash pattern has no end time). -/
def fireCrashPattern (st : St) : St :=
  { st with
    savedPattern := if st.deviceConnected then .armedRed else .idle
    currentPattern := .crash }

/-- The instantaneous jerk computed by the local fallback in `loop`:
`fabsf(d.accel_mag - lastMagLocal) * IMU_SAMPLE_RATE` with
`IMU_SAMPLE_RATE = 50`. -/
def localJerk (st : St) (mag : ℚ) : ℚ :=
  |mag - st.lastMagLocal| * 50

/-- The guard of the local crash branch of `loop` (lines 566-568):
pattern is not already crash, the 3000 ms local-crash cooldown has elapsed,
and the sample is a big hit (`accel_mag > 3.0f || jerkLocal > 40.0f`). -/
def localCrashGuard (st : St) (now : Nat) (mag : ℚ) : Prop :=
  st.currentPattern ≠ .crash ∧ now - st.lastLocalCrashMs ≥ 3000 ∧
    (mag > 3 ∨ localJerk st mag > 40)

instance (st : St) (now : Nat) (mag : ℚ) : Decidable (localCrashGuard st now mag) := by
  unfold localCrashGuard; infer_instance

/-- The guard of the local brake branch of `loop` (lines 575-576): the crash
branch was not taken, the 400 ms local-brake cooldown has elapsed, and the
sample is a strong jerk that is not a big hit
(`jerkLocal > 14.0f && d.accel_mag < 2.2f`). -/
def localBrakeGuard (st : St) (now : Nat) (mag : ℚ) : Prop :=
  ¬ localCrashGuard st now mag ∧ now - st.lastLocalBrakeMs ≥ 400 ∧
    localJerk st mag > 14 ∧ mag < 11/5

instance (st : St) (now : Nat) (mag : ℚ) : Decidable (localBrakeGuard st now mag) := by
  unfold localBrakeGuard; infer_instance

/-- Result of one pass through the local fallback block of `loop`:
the new state, the event notification sent (if any), and which branch of
the `if / else if` was taken (`crashFired` for the crash branch,
`brakeBranch` for the brake branch, covering both its fire and its
debounce-extend arm). -/
structure LocalOut where
  st : St
  msg : Option EventMsg
  crashFired : Bool
  brakeBranch : Bool
deriving Repr

/-- The local fallback block of `loop` (`main.cpp` lines 560-586): computes
the instantaneous jerk, updates `lastMagLocal`, then runs the crash branch
and otherwise the brake branch.  The crash branch stamps the local-crash
channel, fires the crash pattern and reports a local crash; the brake branch
stamps the local-brake channel and, if the brake pattern is already showing,
only extends `brakeEndTime` to `now + 800`, otherwise fires the brake
pattern for 800 ms and reports a local brake. -/
def localFallbackStep (st : St) (now : Nat) (mag : ℚ) : LocalOut :=
  let jerkLocal := localJerk st mag
  let st1 := { st with lastMagLocal := mag }
  if localCrashGuard st now mag then
    let st2 := fireCrashPattern { st1 with lastLocalCrashMs := now }
    ⟨st2, sendEventNotification st2 CLASS_CRASH (reportLocalCrashConf jerkLocal mag),
      true, false⟩
  else if now - st.lastLocalBrakeMs ≥ 400 ∧ jerkLocal > 14 ∧ mag < 11/5 then
    let st2 := { st1 with lastLocalBrakeMs := now }
    if st2.currentPattern = .brake then
      ⟨{ st2 with brakeEndTime := now + 800 }, none, false, true⟩
    else
      let st3 := fireBrakePattern st2 800 now
      ⟨st3, sendEventNotification st3 CLASS_BRAKE (confFromJerk jerkLocal 14 30),
        false, true⟩
  else
    ⟨st1, none, false, false⟩

/-- `classifyAndRespondToEvent(nowMs)` after its classifier calls: `cls` and
`conf` stand for the values of `classifyEvent(features)` and
`getClassConfidence(features, cls)` computed from the freshly extracted
window, and `mNow` stands for the `millis()` value inside the
`fireBrakePattern(900)` call (the post-capture wall clock).  Brake: if the
1500 ms ML-brake cooldown elapsed, stamps the channel, fires the brake
pattern for 900 ms and notifies; otherwise, if the brake pattern is showing,
only extends `brakeEndTime` to `nowMs + 900`.  Crash: only if the 5000 ms
ML-crash cooldown elapsed and the crash pattern is not already showing,
stamps the channel, fires the crash pattern and notifies.  Any other class
is notified with no LED effect. -/
def classifyAndRespondToEvent (st : St) (nowMs : Nat) (cls : Nat) (conf : ℚ)
    (mNow : Nat) : St × Option EventMsg :=
  if cls = CLASS_BRAKE then
    if nowMs - st.lastMLBrakeMs ≥ 1500 then
      let st1 := fireBrakePattern { st with lastMLBrakeMs := nowMs } 900 mNow
      (st1, sendEventNotification st1 cls conf)
    else if st.currentPattern = .brake then
      ({ st with brakeEndTime := nowMs + 900 }, none)
    else
      (st, none)
  else if cls = CLASS_CRASH then
    if nowMs - st.lastMLCrashMs ≥ 5000 ∧ st.currentPattern ≠ .crash then
      let st1 := fireCrashPattern { st with lastMLCrashMs := nowMs }
      (st1, sendEventNotification st1 cls conf)
    else
      (st, none)
  else
    (st, sendEventNotification st cls conf)

/-- One buffer write of `loop` / `capturePostSamples`:
`bufferIndex = (bufferIndex + 1) % EVENT_WINDOW_SIZE` with
`EVENT_WINDOW_SIZE = 150`, and `bufferFull` is set when the index wraps. -/
def pushSample (st : St) : St :=
  let bi := (st.bufferIndex + 1) % 150
  { st with bufferIndex := bi, bufferFull := if bi = 0 then true else st.bufferFull }

/-- The buffer effect of `capturePostSamples(n)`: `n` further writes. -/
def pushN : Nat → St → St
  | 0, st => st
  | n + 1, st => pushN n (pushSample st)

/-- `detectEventTrigger(&d)`: per-sample coarse trigger for the model path,
updating the `lastAccelMag` tracker; fires when `accel_mag > 1.6f` or the
per-sample jerk exceeds `6.0f`. -/
def detectEventTrigger (st : St) (mag : ℚ) : St × Bool :=
  let jerk := |mag - st.lastAccelMag| * 50
  ({ st with lastAccelMag := mag },
    decide (mag > 8/5 ∨ jerk > 6))

/-- Inputs of one sampling tick of `loop`: the tick time `now`, the sample's
acceleration magnitude, and (used only when a model attempt runs) the
classifier outputs `cls`, `conf` on the post-capture window together with
the post-capture `millis()` value `mNow`. -/
structure TickIn where
  now : Nat
  mag : ℚ
  cls : Nat
  conf : ℚ
  mNow : Nat

/-- Outputs of one sampling tick of `loop`. -/
structure TickOut where
  st : St
  localMsg : Option EventMsg
  mlAttempted : Bool
  mlMsg : Option EventMsg

/-- One sampling tick of `loop` (`main.cpp` lines 548-595): store the sample,
run the local fallback, then — only if the buffer is full, the 800 ms attempt
cooldown has elapsed and the coarse trigger fires — stamp the attempt
channel, capture 25 post-event samples and classify. -/
def loopTick (st : St) (t : TickIn) : TickOut :=
  let st := pushSample st
  let r := localFallbackStep st t.now t.mag
  let st := r.st
  if st.bufferFull = true ∧ t.now - st.lastMLAttemptMs ≥ 800 then
    let p := detectEventTrigger st t.mag
    if p.2 then
      let st := pushN 25 { p.1 with lastMLAttemptMs := t.now }
      let q := classifyAndRespondToEvent st t.now t.cls t.conf t.mNow
      ⟨q.1, r.msg, true, q.2⟩
    else ⟨p.1, r.msg, false, none⟩
  else ⟨st, r.msg, false, none⟩

/-- A run of sampling ticks, collecting per-tick model-attempt flags. -/
def runTicks (st : St) : List TickIn → St × List Bool
  | [] => (st, [])
  | t :: rest =>
    let o := loopTick st t
    let r := runTicks o.st rest
    (r.1, o.mlAttempted :: r.2)

/-- A run of the local fallback block over successive `(now, accel_mag)`
ticks, collecting the event notifications sent. -/
def runLocal (st : St) : List (Nat × ℚ) → St × List EventMsg
  | [] => (st, [])
  | (now, mag) :: rest =>
    let o := localFallbackStep st now mag
    let r := runLocal o.st rest
    (r.1, o.msg.toList ++ r.2)

/-- Number of crash-class notifications in a list of event messages. -/
def crashCount (msgs : List EventMsg) : Nat :=
  (msgs.filter fun m => m.cls = CLASS_CRASH).length

/-- The raw local-crash threshold condition of `loop`
(`accel_mag > 3.0f || jerkLocal > 40.0f`) at a given pre-tick state. -/
def crashCondB (st : St) (mag : ℚ) : Bool :=
  decide (mag > 3 ∨ localJerk st mag > 40)

/-- The local-crash threshold condition holds at every tick of a run
(each tick's jerk is computed from the state the run reaches). -/
def allCrashCond (st : St) : List (Nat × ℚ) → Bool
  | [] => true
  | (now, mag) :: rest =>
    crashCondB st mag && allCrashCond (localFallbackStep st now mag).st rest

/-- Every tick time of the list lies in the window `[t0, t0 + 3000)`
(the local crash cooldown is `LOCAL_CRASH_COOLDOWN_MS = 3000`). -/
def allWithin (t0 : Nat) (l : List (Nat × ℚ)) : Bool :=
  l.all fun p => decide (t0 ≤ p.1) && decide (p.1 < t0 + 3000)

/-- The `LEFT_ON` command token. -/
def CMD_LEFT_ON : String := "LEFT_ON"

/-- The `RIGHT_ON` command token. -/
def CMD_RIGHT_ON : String := "RIGHT_ON"

/-- The `TURN_OFF` command token. -/
def CMD_TURN_OFF : String := "TURN_OFF"

/-- The `PARTY_ON` command token. -/
def CMD_PARTY_ON : String := "PARTY_ON"

/-- The `PARTY_OFF` command token. -/
def CMD_PARTY_OFF : String := "PARTY_OFF"

/-- The `CRASH_DISMISS` command token. -/
def CMD_CRASH_DISMISS : String := "CRASH_DISMISS"

/-- `CommandCallbacks::onWrite`: dispatch on the inbound command token,
unconditionally overwriting `currentPattern` for each recognized token
(unknown tokens and the empty value are no-ops).  The animation-step resets
are not modelled. -/
def onWriteCommand (st : St) (value : String) : St :=
  if value.length > 0 then
    if value = CMD_LEFT_ON then { st with currentPattern := .turnLeft }
    else if value = CMD_RIGHT_ON then { st with currentPattern := .turnRight }
    else if value = CMD_TURN_OFF then
      { st with currentPattern := if st.deviceConnected then .armedRed else .idle }
    else if value = CMD_PARTY_ON then { st with currentPattern := .party }
    else if value = CMD_PARTY_OFF then
      { st with currentPattern := if st.deviceConnected then .armedRed else .idle }
    else if value = CMD_CRASH_DISMISS then
      { st with currentPattern := if st.deviceConnected then .armedRed else .idle }
    else st
  else st

/-- The crash rule of `classifyEvent` (`classifier.h` lines 45-50):
`(crashImpact && crashJerk && crashGyro) || (accel_mag_max > 3.6f &&
jerk_max > 45.0f && gyro_mag_max > 180.0f)` where `crashImpact`,
`crashJerk`, `crashGyro` are `accel_mag_max > 3.2f`, `jerk_max > 55.0f`,
`gyro_mag_max > 220.0f`, and the named features are `f[26]`, `f[53]`,
`f[51]`. -/
def crashRule (f : Fin 61 → ℚ) : Prop :=
  (f 26 > 16/5 ∧ f 53 > 55 ∧ f 51 > 220) ∨
    (f 26 > 18/5 ∧ f 53 > 45 ∧ f 51 > 180)

instance (f : Fin 61 → ℚ) : Decidable (crashRule f) := by
  unfold crashRule; infer_instance

/-- The brake rule of `classifyEvent` (`classifier.h` lines 56-61):
jerk mean `f[52]` in `(6, 35)`, jerk max `f[53]` in `(14, 55)`,
gyro-magnitude max `f[51] < 140`, accel-magnitude max `f[26] < 2.6`,
accel-z std `f[17] < 0.9`. -/
def brakeRule (f : Fin 61 → ℚ) : Prop :=
  (f 52 > 6 ∧ f 52 < 35) ∧ (f 53 > 14 ∧ f 53 < 55) ∧
    f 51 < 140 ∧ f 26 < 13/5 ∧ f 17 < 9/10

instance (f : Fin 61 → ℚ) : Decidable (brakeRule f) := by
  unfold brakeRule; infer_instance

/-- The turn rule of `classifyEvent` (`classifier.h` line 66):
`gyro_mag_max > 200.0f && accel_mag_max < 2.2f`. -/
def turnRule (f : Fin 61 → ℚ) : Prop :=
  f 51 > 200 ∧ f 26 < 11/5

instance (f : Fin 61 → ℚ) : Decidable (turnRule f) := by
  unfold turnRule; infer_instance

/-- The bump rule of `classifyEvent` (`classifier.h` lines 71-72):
`accel_mag_max` in `(2.2, 3.2)` and `jerk_max` in `(18, 70)`. -/
def bumpRule (f : Fin 61 → ℚ) : Prop :=
  (f 26 > 11/5 ∧ f 26 < 16/5) ∧ (f 53 > 18 ∧ f 53 < 70)

instance (f : Fin 61 → ℚ) : Decidable (bumpRule f) := by
  unfold bumpRule; infer_instance

/-- `classifyEvent(f)` from `classifier.h`: the ordered `if` chain testing
the crash, brake, turn and bump rules in that order on the raw feature
vector, returning the first match and `CLASS_NORMAL` otherwise. -/
def classifyEvent (f : Fin 61 → ℚ) : Nat :=
  if crashRule f then CLASS_CRASH
  else if brakeRule f then CLASS_BRAKE
  else if turnRule f then CLASS_TURN
  else if bumpRule f then CLASS_BUMP
  else CLASS_NORMAL

/-- `calculateMean(data, size)` from `feature_extraction.h` (with
`size = data.length`, as at every call site). -/
def calculateMean (l : List ℚ) : ℚ :=
  l.sum / l.length

/-- The radicand computed by `calculateStd(data, size, mean)` before its
`sqrt`: the population variance `sum((x - mean)^2) / size`. -/
def calculateVar (l : List ℚ) (mean : ℚ) : ℚ :=
  (l.map fun x => (x - mean) * (x - mean)).sum / l.length

/-- `calculateStd(data, size, mean)`, parametrised by the square-root
function `sqrtF` (there is no exact rational `sqrt`). -/
def calculateStd (sqrtF : ℚ → ℚ) (l : List ℚ) (mean : ℚ) : ℚ :=
  sqrtF (calculateVar l mean)

/-- `calculateSkewness(data, size, mean, std)` from `feature_extraction.h`:
guarded by `if (std == 0) return 0`, otherwise the mean of the cubed
standardised deviations. -/
def calculateSkewness (l : List ℚ) (mean std : ℚ) : ℚ :=
  if std = 0 then 0
  else (l.map fun x => let d := (x - mean) / std; d * d * d).sum / l.length

/-- `calculateKurtosis(data, size, mean, std)` from `feature_extraction.h`:
guarded by `if (std == 0) return 0`, otherwise the mean of the fourth powers
of the standardised deviations, minus 3 (excess kurtosis). -/
def calculateKurtosis (l : List ℚ) (mean std : ℚ) : ℚ :=
  if std = 0 then 0
  else (l.map fun x => let d := (x - mean) / std; d * d * d * d).sum / l.length - 3

/-- The crossing count of `calculateZeroCrossingRate`: consecutive pairs
whose deviations from the mean have strictly negative product. -/
def zcrCount (mean : ℚ) : List ℚ → Nat
  | a :: b :: rest =>
    (if (b - mean) * (a - mean) < 0 then 1 else 0) + zcrCount mean (b :: rest)
  | _ => 0

/-- `calculateZeroCrossingRate(data, size)` from `feature_extraction.h`. -/
def calculateZeroCrossingRate (l : List ℚ) : ℚ :=
  let mean := calculateMean l
  (zcrCount mean l : ℚ) / (2 * l.length)

/-- The running-maximum idiom of `extractFeatures` (`x_max = data[0]`, then
scan); `0` on the empty list, which never occurs at the call sites. -/
def maxList : List ℚ → ℚ
  | [] => 0
  | x :: xs => xs.foldl max x

/-- The running-minimum idiom of `extractFeatures`. -/
def minList : List ℚ → ℚ
  | [] => 0
  | x :: xs => xs.foldl min x

/-- The jerk series of `extractFeatures`: `fabs(mag[i+1] - mag[i]) / dt`
over the 149 consecutive pairs, with `dt = 1.0f / 50.0f`. -/
def jerkList : List ℚ → List ℚ
  | a :: b :: rest => |b - a| / (1/50) :: jerkList (b :: rest)
  | _ => []

/-- The first-strict-maximum index scan of `extractFeatures`
(`if (accel_mag[i] > accel_mag[peak_idx]) peak_idx = i`). -/
def peakIdxAux : List ℚ → ℚ → Nat → Nat → Nat
  | [], _, best, _ => best
  | x :: xs, bv, best, cur =>
    if x > bv then peakIdxAux xs x cur (cur + 1)
    else peakIdxAux xs bv best (cur + 1)

/-- Index of the first strict maximum of a series (`peak_idx` in
`extractFeatures`). -/
def peakIdx : List ℚ → Nat
  | [] => 0
  | x :: xs => peakIdxAux xs x 0 1

/-- The 8 per-accel-axis features of `extractFeatures`: mean, std, max, min,
range, the mean again (the documented median approximation), skewness and
excess kurtosis. -/
def accelAxisFeatures (sqrtF : ℚ → ℚ) (l : List ℚ) : List ℚ :=
  let mean := calculateMean l
  let std := calculateStd sqrtF l mean
  let mx := maxList l
  let mn := minList l
  [mean, std, mx, mn, mx - mn, mean,
    calculateSkewness l mean std, calculateKurtosis l mean std]

/-- The 6 per-gyro-axis features of `extractFeatures`: mean, std, max, min,
range, `max(fabs(max), fabs(min))`. -/
def gyroAxisFeatures (sqrtF : ℚ → ℚ) (l : List ℚ) : List ℚ :=
  let mean := calculateMean l
  let std := calculateStd sqrtF l mean
  let mx := maxList l
  let mn := minList l
  [mean, std, mx, mn, mx - mn, max |mx| |mn|]

/-- The mean-square energy features of `extractFeatures`. -/
def energyOf (l : List ℚ) : ℚ :=
  (l.map fun x => x * x).sum / l.length

/-- The `IMUData` struct of `feature_extraction.h` (floats as rationals). -/
structure IMUData where
  accel_x : ℚ
  accel_y : ℚ
  accel_z : ℚ
  gyro_x : ℚ
  gyro_y : ℚ
  gyro_z : ℚ
  accel_mag : ℚ
  timestamp : Nat
deriving DecidableEq, Repr

/-- `extractFeatures(buffer, windowSize, features)` from
`feature_extraction.h`, with `windowSize = buffer.length` (the call site
passes the 150-sample window) and `sqrtF` the square-root function used by
`calculateStd` and for the gyro magnitude.  The features are produced in
the exact write order of the source (accel x, y, z, magnitude: 8 each;
gyro x, y, z: 6 each; gyro-magnitude mean and max; jerk mean, max, std;
accel and gyro energies; gyro x/y/z zero-crossing rates; normalized peak
index), followed by the `while (idx < N_FEATURES)` zero padding. -/
def extractFeatures (sqrtF : ℚ → ℚ) (buffer : List IMUData) : List ℚ :=
  let accel_x := buffer.map (·.accel_x)
  let accel_y := buffer.map (·.accel_y)
  let accel_z := buffer.map (·.accel_z)
  let accel_mag := buffer.map (·.accel_mag)
  let gyro_x := buffer.map (·.gyro_x)
  let gyro_y := buffer.map (·.gyro_y)
  let gyro_z := buffer.map (·.gyro_z)
  let gyro_mag := buffer.map fun d =>
    sqrtF (d.gyro_x * d.gyro_x + d.gyro_y * d.gyro_y + d.gyro_z * d.gyro_z)
  let jerk := jerkList accel_mag
  let jerk_mean := calculateMean jerk
  let gm_mean := calculateMean gyro_mag
  let fs :=
    accelAxisFeatures sqrtF accel_x ++
    accelAxisFeatures sqrtF accel_y ++
    accelAxisFeatures sqrtF accel_z ++
    accelAxisFeatures sqrtF accel_mag ++
    gyroAxisFeatures sqrtF gyro_x ++
    gyroAxisFeatures sqrtF gyro_y ++
    gyroAxisFeatures sqrtF gyro_z ++
    [gm_mean, maxList gyro_mag] ++
    [jerk_mean, maxList jerk, calculateStd sqrtF jerk jerk_mean] ++
    [energyOf accel_mag, energyOf gyro_mag] ++
    [calculateZeroCrossingRate gyro_x, calculateZeroCrossingRate gyro_y,
      calculateZeroCrossingRate gyro_z] ++
    [(peakIdx accel_mag : ℚ) / buffer.length]
  fs ++ List.replicate (N_FEATURES - fs.length) 0

/-- A byte (value `< 256`) split of a 32-bit value into 4 little-endian
bytes, as `memcpy` of a 4-byte scalar produces on the little-endian
ESP32-C3. -/
def toLE4 (x : Nat) : List Nat :=
  [x % 256, x / 256 % 256, x / 65536 % 256, x / 16777216 % 256]

/-- Reassembly of 4 little-endian bytes into a 32-bit value. -/
def fromLE4 (b : List Nat) : Nat :=
  match b with
  | [b0, b1, b2, b3] => b0 + 256 * (b1 + 256 * (b2 + 256 * b3))
  | _ => 0

/-- The seven 32-bit fields of the telemetry frame, as bit patterns: the six
`float` fields of `IMUData` (accel x, y, z; gyro x, y, z) and the 32-bit
`unsigned long` timestamp.  Two floats are equal exactly when their bit
patterns are, so exact recovery of the patterns is exact recovery of the
field values. -/
structure IMUWire where
  ax : Nat
  ay : Nat
  az : Nat
  gx : Nat
  gy : Nat
  gz : Nat
  ts : Nat
deriving DecidableEq, Repr

/-- `sendIMUData`: the 28-byte telemetry payload, seven 4-byte little-endian
fields `memcpy`-ed at offsets 0, 4, 8, 12, 16, 20, 24. -/
def sendIMUDataPayload (d : IMUWire) : List Nat :=
  toLE4 d.ax ++ toLE4 d.ay ++ toLE4 d.az ++
    toLE4 d.gx ++ toLE4 d.gy ++ toLE4 d.gz ++ toLE4 d.ts

/-- Modelled from the spec: the telemetry decoder (it lives in the iOS app,
which is not part of this repository) reads the 28-byte payload back as
seven little-endian 32-bit fields at offsets 0, 4, 8, 12, 16, 20, 24. -/
def decodeIMUPayload (p : List Nat) : Option IMUWire :=
  match p with
  | [a0, a1, a2, a3, b0, b1, b2, b3, c0, c1, c2, c3,
     d0, d1, d2, d3, e0, e1, e2, e3, f0, f1, f2, f3,
     g0, g1, g2, g3] =>
    some ⟨fromLE4 [a0, a1, a2, a3], fromLE4 [b0, b1, b2, b3],
      fromLE4 [c0, c1, c2, c3], fromLE4 [d0, d1, d2, d3],
      fromLE4 [e0, e1, e2, e3], fromLE4 [f0, f1, f2, f3],
      fromLE4 [g0, g1, g2, g3]⟩
  | _ => none

/-- `sendEventNotification`: the 5-byte event payload, the class ordinal cast
to one byte followed by the 4 little-endian bytes of the confidence float's
bit pattern `confBits`. -/
def sendEventPayload (cls confBits : Nat) : List Nat :=
  cls % 256 :: toLE4 confBits

/-- Modelled from the spec: the event-frame decoder (in the iOS app, not in
this repository) reads byte 0 as the class ordinal and bytes 1-4 as the
little-endian 32-bit confidence. -/
def decodeEventPayload (p : List Nat) : Option (Nat × Nat) :=
  match p with
  | [c, b0, b1, b2, b3] => some (c, fromLE4 [b0, b1, b2, b3])
  | _ => none

/-- A reachable state with the crash pattern showing: the local crash channel
fired at 3100 ms on a 4 g spike (stamping `lastLocalCrashMs` and leaving
`lastMagLocal = 4`), with a connected device and all other channels never
fired. -/
def stCrashShowing : St := { st0 with
  currentPattern := .crash
  savedPattern := .idle
  lastLocalCrashMs := 3100
  lastMagLocal := 4
  deviceConnected := true }

/-- A reachable state with the brake pattern showing: the local brake channel
fired at 900 ms (pattern end time 1700 ms), with a connected device and the
ML brake channel never fired. -/
def stBrakeShowing : St := { st0 with
  currentPattern := .brake
  savedPattern := .armedRed
  brakeEndTime := 1700
  lastLocalBrakeMs := 900
  deviceConnected := true }

/-- `stBrakeShowing` a little later in a world where the ML brake channel
fired at 900 ms, so that at 1600 ms its 1500 ms cooldown has not elapsed. -/
def stBrakeShowingCooling : St := { stBrakeShowing with lastMLBrakeMs := 900 }

/-- A state at 500 ms whose local crash channel is on cooldown (stamped at
400 ms) and whose previous sample magnitude was 21 g, so the next 1 g sample
carries an instantaneous jerk of 1000 g/s. -/
def stHugeJerk : St := { st0 with
  lastLocalCrashMs := 400
  lastMagLocal := 21 }

/-- The boot state with a connected device. -/
def stConnected : St := { st0 with deviceConnected := true }

/-- A constant feature vector whose every entry is 300, satisfying the crash
rule of `classifyEvent`. -/
def fCrashVec : Fin 61 → ℚ := fun _ => 300

/-- An all-zero sample for witnesses. -/
def sample0 : IMUData := ⟨0, 0, 0, 0, 0, 0, 0, 0⟩

/-- The claim that the local brake detector fires exactly on a jerk band with
some upper bound `hi` (together with the lower bound 14, the magnitude
ceiling 2.2 and the 400 ms cooldown), on every tick on which the crash
branch is not taken. -/
def brakeBandClaim (hi : ℚ) : Prop :=
  ∀ (st : St) (now : Nat) (mag : ℚ), ¬ localCrashGuard st now mag →
    ((localFallbackStep st now mag).brakeBranch = true ↔
      (now - st.lastLocalBrakeMs ≥ 400 ∧ localJerk st mag > 14 ∧
        localJerk st mag < hi ∧ mag < 11/5))

/-! ## Helper lemmas -/

theorem crashCount_append (a b : List EventMsg) :
    crashCount (a ++ b) = crashCount a + crashCount b := by
  simp [crashCount, List.filter_append]

theorem localFallback_buffer (st : St) (now : Nat) (mag : ℚ) :
    (localFallbackStep st now mag).st.bufferIndex = st.bufferIndex ∧
    (localFallbackStep st now mag).st.bufferFull = st.bufferFull := by
  simp only [localFallbackStep]
  split_ifs <;> exact ⟨rfl, rfl⟩

theorem localFallback_of_not_crash (st : St) (now : Nat) (mag : ℚ)
    (h : ¬ localCrashGuard st now mag) :
    (localFallbackStep st now mag).st.lastLocalCrashMs = st.lastLocalCrashMs ∧
    (localFallbackStep st now mag).crashFired = false ∧
    crashCount (localFallbackStep st now mag).msg.toList = 0 := by
  simp only [localFallbackStep]
  rw [if_neg h]
  split_ifs with h1 h2
  · exact ⟨rfl, rfl, rfl⟩
  · refine ⟨rfl, rfl, ?_⟩
    simp only [crashCount, sendEventNotification, fireBrakePattern]
    split_ifs <;> simp [CLASS_BRAKE, CLASS_CRASH]
  · exact ⟨rfl, rfl, rfl⟩

theorem runLocal_no_refire (l : List (Nat × ℚ)) :
    ∀ st : St, (∀ p ∈ l, p.1 < st.lastLocalCrashMs + 3000) →
      crashCount (runLocal st l).2 = 0 ∧
      (runLocal st l).1.lastLocalCrashMs = st.lastLocalCrashMs := by
  induction l with
  | nil => intro st _; simp [runLocal, crashCount]
  | cons p rest ih =>
    intro st hwin
    obtain ⟨now, mag⟩ := p
    have hng : ¬ localCrashGuard st now mag := by
      rintro ⟨-, hcool, -⟩
      have := hwin (now, mag) (List.mem_cons_self _ _)
      omega
    have hstep := localFallback_of_not_crash st now mag hng
    have hrest := ih (localFallbackStep st now mag).st (by
      intro q hq
      rw [hstep.1]
      exact hwin q (List.mem_cons_of_mem _ hq))
    simp only [runLocal, crashCount_append]
    refine ⟨?_, by rw [hrest.2, hstep.1]⟩
    rw [hstep.2.2, hrest.1]

theorem pushSample_not_wrapping (st : St) (h : st.bufferIndex + 1 < 150) :
    (pushSample st).bufferIndex = st.bufferIndex + 1 ∧
    (pushSample st).bufferFull = st.bufferFull := by
  have hbi : (st.bufferIndex + 1) % 150 = st.bufferIndex + 1 := Nat.mod_eq_of_lt h
  refine ⟨by simp [pushSample, hbi], ?_⟩
  simp only [pushSample, hbi]
  simp [Nat.succ_ne_zero]

theorem loopTick_not_full (st : St) (t : TickIn)
    (h : (pushSample st).bufferFull = false) :
    (loopTick st t).mlAttempted = false ∧
    (loopTick st t).st.bufferFull = false ∧
    (loopTick st t).st.bufferIndex = (pushSample st).bufferIndex := by
  have hb := localFallback_buffer (pushSample st) t.now t.mag
  simp only [loopTick]
  rw [if_neg (by rintro ⟨hc, -⟩; rw [hb.2, h] at hc; exact Bool.false_ne_true hc)]
  exact ⟨rfl, by rw [hb.2, h], hb.1⟩

theorem runTicks_not_full (ins : List TickIn) :
    ∀ st : St, st.bufferFull = false → st.bufferIndex + ins.length < 150 →
      (runTicks st ins).1.bufferFull = false ∧
      (runTicks st ins).1.bufferIndex = st.bufferIndex + ins.length ∧
      ∀ b ∈ (runTicks st ins).2, b = false := by
  induction ins with
  | nil => intro st hf _; simpa [runTicks] using hf
  | cons t rest ih =>
    intro st hf hlen
    have hp := pushSample_not_wrapping st (by simp at hlen; omega)
    have hfull1 : (pushSample st).bufferFull = false := hp.2.trans hf
    have hl := loopTick_not_full st t hfull1
    have hrest := ih (loopTick st t).st (hl.2.1) (by
      rw [hl.2.2, hp.1]; simp at hlen ⊢; omega)
    simp only [runTicks]
    refine ⟨hrest.1, ?_, ?_⟩
    · rw [hrest.2.1, hl.2.2, hp.1]; simp; omega
    · intro b hb
      rcases List.mem_cons.mp hb with h1 | h1
      · rw [h1]; exact hl.1
      · exact hrest.2.2 b h1

/-! ## Claim theorems -/

/-- C5: the threshold classifier tests the class predicates in the fixed
order Crash, Brake, Turn, Bump, Normal and returns the first match; in
particular any vector satisfying both the crash and the brake predicate
yields Crash. -/
theorem classifier_priority (f : Fin 61 → ℚ) :
    (crashRule f → classifyEvent f = CLASS_CRASH) ∧
    (¬ crashRule f → brakeRule f → classifyEvent f = CLASS_BRAKE) ∧
    (¬ crashRule f → ¬ brakeRule f → turnRule f → classifyEvent f = CLASS_TURN) ∧
    (¬ crashRule f → ¬ brakeRule f → ¬ turnRule f → bumpRule f →
      classifyEvent f = CLASS_BUMP) ∧
    (¬ crashRule f → ¬ brakeRule f → ¬ turnRule f → ¬ bumpRule f →
      classifyEvent f = CLASS_NORMAL) ∧
    (crashRule f → brakeRule f → classifyEvent f = CLASS_CRASH) := by
  unfold classifyEvent
  split_ifs <;> tauto

/-- C5 witness: the constant-300 vector satisfies the crash rule and is
classified as Crash. -/
theorem classifier_priority_witness :
    crashRule fCrashVec ∧ classifyEvent fCrashVec = CLASS_CRASH :=
  ⟨by norm_num [crashRule, fCrashVec],
    (classifier_priority fCrashVec).1 (by norm_num [crashRule, fCrashVec])⟩

/-- C9: when the series' population standard deviation is zero — that is,
`std` squares to the variance radicand computed by `calculateStd` and that
radicand is zero — both `calculateSkewness` and `calculateKurtosis` take
their `std == 0` guard and return 0 without reaching the division by
`std`. -/
theorem skew_kurt_zero_guard (l : List ℚ) (mean std : ℚ)
    (hsq : std * std = calculateVar l mean) (hv : calculateVar l mean = 0) :
    calculateSkewness l mean std = 0 ∧ calculateKurtosis l mean std = 0 := by
  have hz : std = 0 := mul_self_eq_zero.mp (hsq.trans hv)
  simp [calculateSkewness, calculateKurtosis, hz]

/-- C9 witness: the constant series `[2, 2]` has zero variance, and its
skewness and kurtosis are 0. -/
theorem skew_kurt_zero_guard_witness :
    (0 : ℚ) * 0 = calculateVar [2, 2] 2 ∧ calculateVar [2, 2] 2 = 0 ∧
    calculateSkewness [2, 2] 2 0 = 0 ∧ calculateKurtosis [2, 2] 2 0 = 0 := by
  have hv : calculateVar [(2 : ℚ), 2] 2 = 0 := by norm_num [calculateVar]
  refine ⟨by rw [hv]; ring, hv, ?_, ?_⟩
  · exact (skew_kurt_zero_guard [2, 2] 2 0 (by rw [hv]; ring) hv).1
  · exact (skew_kurt_zero_guard [2, 2] 2 0 (by rw [hv]; ring) hv).2

/-- C10: while the crash pattern is showing, each of the five recognized
non-dismiss commands immediately overwrites `currentPattern` with the
commanded pattern — the crash display is not protected against remote
commands. -/
theorem commands_override_crash (st : St) (_h : st.currentPattern = .crash) :
    (onWriteCommand st CMD_LEFT_ON).currentPattern = .turnLeft ∧
    (onWriteCommand st CMD_RIGHT_ON).currentPattern = .turnRight ∧
    (onWriteCommand st CMD_TURN_OFF).currentPattern =
      (if st.deviceConnected then .armedRed else .idle) ∧
    (onWriteCommand st CMD_PARTY_ON).currentPattern = .party ∧
    (onWriteCommand st CMD_PARTY_OFF).currentPattern =
      (if st.deviceConnected then .armedRed else .idle) ∧
    ((if st.deviceConnected then LEDPattern.armedRed else LEDPattern.idle) ≠
      LEDPattern.crash) := by
  refine ⟨rfl, rfl, rfl, rfl, rfl, ?_⟩
  cases hc : st.deviceConnected <;> simp

/-- C10 witness: from a connected crash-showing state, `LEFT_ON` switches the
display to the turn-left pattern. -/
theorem commands_override_crash_witness :
    stCrashShowing.currentPattern = LEDPattern.crash ∧
    (onWriteCommand stCrashShowing CMD_LEFT_ON).currentPattern =
      LEDPattern.turnLeft :=
  ⟨rfl, (commands_override_crash stCrashShowing rfl).1⟩

/-- C8: `extractFeatures` always produces exactly 61 feature values, the
output length being independent of the window's contents, and it is a pure
function of the window: identical 150-sample windows yield identical
outputs. -/
theorem extractFeatures_pure_len61 (sqrtF : ℚ → ℚ) (w1 w2 : List IMUData) :
    (extractFeatures sqrtF w1).length = 61 ∧
    (w1.length = 150 → w1 = w2 →
      extractFeatures sqrtF w1 = extractFeatures sqrtF w2) := by
  refine ⟨?_, fun _ h => by rw [h]⟩
  simp [extractFeatures, accelAxisFeatures, gyroAxisFeatures, N_FEATURES]

/-- C8 witness: a concrete all-zero 150-sample window has length 150 and a
61-entry feature vector equal to itself. -/
theorem extractFeatures_pure_len61_witness :
    (List.replicate 150 sample0).length = 150 ∧
    (extractFeatures (fun q => q) (List.replicate 150 sample0)).length = 61 ∧
    extractFeatures (fun q => q) (List.replicate 150 sample0) =
      extractFeatures (fun q => q) (List.replicate 150 sample0) := by
  refine ⟨by simp, ?_, ?_⟩
  · exact (extractFeatures_pure_len61 (fun q => q) (List.replicate 150 sample0)
      (List.replicate 150 sample0)).1
  · exact (extractFeatures_pure_len61 (fun q => q) (List.replicate 150 sample0)
      (List.replicate 150 sample0)).2 (by simp) rfl

theorem fromLE4_toLE4 (x : Nat) (h : x < 4294967296) : fromLE4 (toLE4 x) = x := by
  simp only [toLE4, fromLE4]
  omega

/-- C6: encoding the 28-byte telemetry frame (seven little-endian 32-bit
fields) and the 5-byte event frame (class byte plus little-endian 32-bit
confidence pattern) and decoding them back recovers every field exactly. -/
theorem wire_roundtrip (d : IMUWire)
    (h1 : d.ax < 4294967296) (h2 : d.ay < 4294967296) (h3 : d.az < 4294967296)
    (h4 : d.gx < 4294967296) (h5 : d.gy < 4294967296) (h6 : d.gz < 4294967296)
    (h7 : d.ts < 4294967296)
    (cls confBits : Nat) (hc : cls < 256) (hf : confBits < 4294967296) :
    (sendIMUDataPayload d).length = 28 ∧
    decodeIMUPayload (sendIMUDataPayload d) = some d ∧
    (sendEventPayload cls confBits).length = 5 ∧
    decodeEventPayload (sendEventPayload cls confBits) = some (cls, confBits) := by
  obtain ⟨ax, ay, az, gx, gy, gz, ts⟩ := d
  refine ⟨rfl, ?_, rfl, ?_⟩
  · simp only [sendIMUDataPayload, toLE4, List.cons_append, List.nil_append,
      decodeIMUPayload, fromLE4, Option.some.injEq, IMUWire.mk.injEq]
    simp only at h1 h2 h3 h4 h5 h6 h7
    omega
  · simp only [sendEventPayload, toLE4, decodeEventPayload, fromLE4,
      Option.some.injEq, Prod.mk.injEq]
    omega

/-- C6 witness: a concrete telemetry frame and event frame round-trip. -/
theorem wire_roundtrip_witness :
    decodeIMUPayload (sendIMUDataPayload ⟨1, 2, 3, 4, 5, 6, 7⟩) =
      some ⟨1, 2, 3, 4, 5, 6, 7⟩ ∧
    decodeEventPayload (sendEventPayload 2 3212836864) = some (2, 3212836864) := by
  have h := wire_roundtrip ⟨1, 2, 3, 4, 5, 6, 7⟩ (by norm_num) (by norm_num)
    (by norm_num) (by norm_num) (by norm_num) (by norm_num) (by norm_num)
    2 3212836864 (by norm_num) (by norm_num)
  exact ⟨h.2.1, h.2.2.2⟩

/-- C4: starting from boot, for every run of fewer than 150 sampling ticks
the buffer-full flag stays false and no tick attempts a model-path
classification; the first attempt is possible only once 150 samples have
been stored. -/
theorem buffer_gates_classification (ins : List TickIn) (h : ins.length < 150) :
    (runTicks st0 ins).1.bufferFull = false ∧
    ∀ b ∈ (runTicks st0 ins).2, b = false := by
  have hrun := runTicks_not_full ins st0 rfl (by show 0 + ins.length < 150; omega)
  exact ⟨hrun.1, hrun.2.2⟩

/-- C4 witness: a concrete two-tick run from boot attempts nothing and
leaves the buffer not full. -/
theorem buffer_gates_classification_witness :
    ([⟨20, 1, 0, 0, 20⟩, ⟨40, 4, 0, 0, 40⟩] : List TickIn).length < 150 ∧
    (runTicks st0 [⟨20, 1, 0, 0, 20⟩, ⟨40, 4, 0, 0, 40⟩]).1.bufferFull = false := by
  refine ⟨by norm_num, ?_⟩
  exact (buffer_gates_classification [⟨20, 1, 0, 0, 20⟩, ⟨40, 4, 0, 0, 40⟩]
    (by norm_num)).1

/-- C3: if the local-crash threshold condition holds on a run of consecutive
ticks all lying within the 3000 ms local crash cooldown of the first tick,
and at the first tick the channel is armed (cooldown elapsed, crash pattern
not showing, device connected), then exactly one crash notification is
emitted: the first tick fires and stamps the channel and every later tick
emits none. -/
theorem local_crash_cooldown_once (st : St) (t0 : Nat) (mag0 : ℚ)
    (rest : List (Nat × ℚ))
    (hconn : st.deviceConnected = true)
    (hpat : st.currentPattern ≠ .crash)
    (hcool : t0 - st.lastLocalCrashMs ≥ 3000)
    (hcond : allCrashCond st ((t0, mag0) :: rest) = true)
    (hwin : allWithin t0 rest = true) :
    (localFallbackStep st t0 mag0).crashFired = true ∧
    crashCount (runLocal st ((t0, mag0) :: rest)).2 = 1 := by
  have hc0 : crashCondB st mag0 = true := by
    simp only [allCrashCond, Bool.and_eq_true] at hcond
    exact hcond.1
  have hg : localCrashGuard st t0 mag0 := ⟨hpat, hcool, of_decide_eq_true hc0⟩
  have hfired : (localFallbackStep st t0 mag0).crashFired = true := by
    simp only [localFallbackStep]
    rw [if_pos hg]
  have hmsg : (localFallbackStep st t0 mag0).msg =
      some ⟨CLASS_CRASH, reportLocalCrashConf (localJerk st mag0) mag0⟩ := by
    simp only [localFallbackStep]
    rw [if_pos hg]
    simp [sendEventNotification, fireCrashPattern, hconn]
  have hlast : (localFallbackStep st t0 mag0).st.lastLocalCrashMs = t0 := by
    simp only [localFallbackStep]
    rw [if_pos hg]
    rfl
  have hwin2 : ∀ p ∈ rest, p.1 < (localFallbackStep st t0 mag0).st.lastLocalCrashMs + 3000 := by
    intro p hp
    rw [hlast]
    simp only [allWithin, List.all_eq_true, Bool.and_eq_true, decide_eq_true_eq] at hwin
    exact (hwin p hp).2
  have hrest := runLocal_no_refire rest (localFallbackStep st t0 mag0).st hwin2
  refine ⟨hfired, ?_⟩
  simp only [runLocal, crashCount_append]
  rw [hmsg, hrest.1]
  simp [crashCount, CLASS_CRASH]

/-- C3 witness: the crash condition holds on three consecutive ticks within
3000 ms, and the run emits exactly one crash notification. -/
theorem local_crash_cooldown_once_witness :
    allCrashCond stConnected [(3000, 4), (3020, 4), (3040, 4)] = true ∧
    crashCount (runLocal stConnected [(3000, 4), (3020, 4), (3040, 4)]).2 = 1 := by
  have hcond : allCrashCond stConnected [(3000, 4), (3020, 4), (3040, 4)] = true := by
    norm_num [allCrashCond, crashCondB, localFallbackStep, localCrashGuard,
      localBrakeGuard, localJerk, stConnected, st0, fireCrashPattern,
      fireBrakePattern, sendEventNotification]
  refine ⟨hcond, ?_⟩
  exact (local_crash_cooldown_once stConnected 3000 4 [(3020, 4), (3040, 4)]
    rfl (by decide) (by decide) hcond (by decide)).2

/-- C1 counterexample: in a reachable state showing the crash pattern (local
crash fired at 3100 ms), the very next tick at 3600 ms with the magnitude
back at 1 g satisfies the local brake guard (jerk 150 g/s), and the tick
replaces the crash pattern with the brake pattern — a Brake detection does
interrupt an active Crash pattern, with neither a dismiss command nor the
crash cooldown having elapsed. -/
theorem crash_preemption_counterexample :
    stCrashShowing.currentPattern = LEDPattern.crash ∧
    localBrakeGuard stCrashShowing 3600 1 ∧
    3600 - stCrashShowing.lastLocalCrashMs < 3000 ∧
    (localFallbackStep stCrashShowing 3600 1).st.currentPattern =
      LEDPattern.brake := by
  refine ⟨rfl, ?_, by decide, ?_⟩
  · refine ⟨fun hg => hg.1 rfl, by decide, ?_, by norm_num⟩
    norm_num [localJerk, stCrashShowing, st0]
  · norm_num [localFallbackStep, localCrashGuard, localJerk, stCrashShowing,
      st0, fireBrakePattern]
    rfl

/-- C1 amended: while the crash pattern is showing, neither crash channel can
fire again (the local crash branch is skipped and a model-path Crash result
is ignored without notification), and within a single tick a taken crash
branch suppresses the brake branch; however a local Brake detection on a
later tick (brake cooldown elapsed, jerk above 14 g/s, magnitude below
2.2 g) replaces the crash pattern with the brake pattern — dismissal and the
crash cooldown are not the only ways the crash display ends. -/
theorem crash_preemption_amended (st : St) (now : Nat) (mag conf : ℚ) (mNow : Nat)
    (h : st.currentPattern = .crash) :
    (localFallbackStep st now mag).crashFired = false ∧
    classifyAndRespondToEvent st now CLASS_CRASH conf mNow = (st, none) ∧
    (now - st.lastLocalBrakeMs ≥ 400 → localJerk st mag > 14 → mag < 11/5 →
      (localFallbackStep st now mag).st.currentPattern = .brake ∧
      (localFallbackStep st now mag).st.brakeEndTime = now + 800) := by
  have hng : ¬ localCrashGuard st now mag := fun hg => hg.1 h
  refine ⟨(localFallback_of_not_crash st now mag hng).2.1, ?_, ?_⟩
  · simp only [classifyAndRespondToEvent]
    rw [if_neg (show ¬ (CLASS_CRASH = CLASS_BRAKE) by decide),
      if_pos trivial,
      if_neg (show ¬ (now - st.lastMLCrashMs ≥ 5000 ∧
        st.currentPattern ≠ LEDPattern.crash) from fun hc => hc.2 h)]
  · intro hcool hjerk hmag
    simp only [localFallbackStep]
    rw [if_neg hng, if_pos ⟨hcool, hjerk, hmag⟩]
    split_ifs with hb
    · simp [h] at hb
    · exact ⟨rfl, rfl⟩

/-- C1 amended witness: the concrete crash-showing state of the
counterexample, where the interrupting brake tick behaves exactly as the
amended statement says. -/
theorem crash_preemption_amended_witness :
    (localFallbackStep stCrashShowing 3600 1).st.currentPattern =
      LEDPattern.brake ∧
    (localFallbackStep stCrashShowing 3600 1).crashFired = false := by
  have h := crash_preemption_amended stCrashShowing 3600 1 0 0 rfl
  exact ⟨(h.2.2 (by decide) (by norm_num [localJerk, stCrashShowing, st0])
    (by norm_num)).1, h.1⟩

/-- C2 counterexample: with the brake pattern showing (local brake fired at
900 ms, pattern until 1700 ms) and the ML brake channel never yet fired, a
model-path Brake classification at 1600 ms finds its 1500 ms cooldown
elapsed and sends a second Brake notification even though the pattern is
already showing. -/
theorem brake_debounce_counterexample :
    stBrakeShowing.currentPattern = LEDPattern.brake ∧
    (classifyAndRespondToEvent stBrakeShowing 1600 CLASS_BRAKE (1/2) 2100).2 =
      some ⟨CLASS_BRAKE, 1/2⟩ := by
  refine ⟨rfl, ?_⟩
  simp only [classifyAndRespondToEvent, if_true]
  rw [if_pos (by decide)]
  rfl

/-- C2 amended: a Brake detection while the brake pattern is showing extends
the pattern's end time without a second notification only when the firing
channel's cooldown has not elapsed — a model-path Brake within the 1500 ms
ML cooldown extends to `now + 900` silently, and a local brake detection
(with its 400 ms cooldown elapsed) extends to `now + 800` silently; but a
model-path Brake whose cooldown has elapsed re-fires the pattern and sends
another notification. -/
theorem brake_debounce_amended (st : St) (now : Nat) (conf mag : ℚ) (mNow : Nat)
    (h : st.currentPattern = .brake) :
    (now - st.lastMLBrakeMs < 1500 →
      classifyAndRespondToEvent st now CLASS_BRAKE conf mNow =
        ({ st with brakeEndTime := now + 900 }, none)) ∧
    (now - st.lastMLBrakeMs ≥ 1500 →
      (classifyAndRespondToEvent st now CLASS_BRAKE conf mNow).1.currentPattern =
        .brake ∧
      (classifyAndRespondToEvent st now CLASS_BRAKE conf mNow).1.brakeEndTime =
        mNow + 900 ∧
      (st.deviceConnected = true →
        (classifyAndRespondToEvent st now CLASS_BRAKE conf mNow).2 =
          some ⟨CLASS_BRAKE, conf⟩)) ∧
    (localBrakeGuard st now mag →
      (localFallbackStep st now mag).st.brakeEndTime = now + 800 ∧
      (localFallbackStep st now mag).msg = none) := by
  refine ⟨?_, ?_, ?_⟩
  · intro hlt
    simp only [classifyAndRespondToEvent, if_true]
    rw [if_neg (by omega), if_pos h]
  · intro hge
    simp only [classifyAndRespondToEvent, if_true]
    rw [if_pos hge]
    refine ⟨rfl, rfl, fun hc => ?_⟩
    simp [sendEventNotification, fireBrakePattern, hc]
  · rintro ⟨hng, hcool, hjerk, hmag⟩
    simp only [localFallbackStep]
    rw [if_neg hng, if_pos ⟨hcool, hjerk, hmag⟩, if_pos h]
    exact ⟨rfl, rfl⟩

/-- C2 amended witness: at 1600 ms with the ML brake channel stamped at
900 ms (cooldown not elapsed) and the brake pattern showing, a model Brake
classification extends the end time to 2500 ms and sends nothing. -/
theorem brake_debounce_amended_witness :
    (classifyAndRespondToEvent stBrakeShowingCooling 1600 CLASS_BRAKE
      (1/2) 2100).2 = none ∧
    (classifyAndRespondToEvent stBrakeShowingCooling 1600 CLASS_BRAKE
      (1/2) 2100).1.brakeEndTime = 2500 := by
  have h := (brake_debounce_amended stBrakeShowingCooling 1600 (1/2) 0 2100
    rfl).1 (by decide)
  constructor
  · rw [h]
  · rw [h]

/-- C7 counterexample: no upper bound `hi` makes the local brake detector a
band detector — for every candidate band the detector still fires on a tick
whose jerk exceeds `hi` (the crash branch being unavailable because its
cooldown has not elapsed), so the brake condition has a lower jerk bound
only. -/
theorem local_detector_counterexample : ¬ ∃ hi : ℚ, brakeBandClaim hi := by
  rintro ⟨hi, hclaim⟩
  set q : ℚ := max hi 14 + 1 with hqdef
  have hq14 : (14 : ℚ) < q := by
    have := le_max_right hi 14
    rw [hqdef]; linarith
  have hqhi : hi < q := by
    have := le_max_left hi 14
    rw [hqdef]; linarith
  set st : St := { st0 with lastLocalCrashMs := 400, lastMagLocal := 1 + q / 50 }
    with hst
  have hjerk : localJerk st 1 = q := by
    show |1 - (1 + q / 50)| * 50 = q
    rw [show (1 : ℚ) - (1 + q / 50) = -(q / 50) by ring, abs_neg,
      abs_of_nonneg (by positivity)]
    field_simp
  have hng : ¬ localCrashGuard st 500 1 := by
    rintro ⟨-, hcool, -⟩
    simp only [hst, st0] at hcool
    omega
  have hcond : 500 - st.lastLocalBrakeMs ≥ 400 ∧ localJerk st 1 > 14 ∧
      (1 : ℚ) < 11/5 := by
    refine ⟨by simp [hst, st0], ?_, by norm_num⟩
    rw [hjerk]; exact hq14
  have hbb : (localFallbackStep st 500 1).brakeBranch = true := by
    simp only [localFallbackStep]
    rw [if_neg hng, if_pos hcond]
    split_ifs <;> rfl
  have hband := (hclaim st 500 1 hng).mp hbb
  have hlt : localJerk st 1 < hi := hband.2.2.1
  rw [hjerk] at hlt
  linarith

/-- C7 amended: on every tick the local fallback evaluates Crash first — the
crash branch fires exactly on its guard (pattern not already crash, 3000 ms
cooldown elapsed, magnitude above 3 g or jerk above 40 g/s) and, when taken,
suppresses the brake branch that tick; the brake branch is taken exactly
when the crash branch is not taken, the 400 ms brake cooldown has elapsed,
the jerk exceeds 14 g/s (a lower bound only, with no upper bound) and the
magnitude is below 2.2 g. -/
theorem local_detector_amended (st : St) (now : Nat) (mag : ℚ) :
    ((localFallbackStep st now mag).crashFired = true ↔
      localCrashGuard st now mag) ∧
    (localCrashGuard st now mag →
      (localFallbackStep st now mag).brakeBranch = false) ∧
    ((localFallbackStep st now mag).brakeBranch = true ↔
      localBrakeGuard st now mag) := by
  simp only [localFallbackStep, localBrakeGuard]
  split_ifs with h1 h2 h3 <;> simp_all

/-- C7 amended witness: a state whose crash channel is cooling down and whose
jerk is 1000 g/s — far beyond any band — still takes the brake branch. -/
theorem local_detector_amended_witness :
    (localFallbackStep stHugeJerk 500 1).brakeBranch = true ∧
    localBrakeGuard stHugeJerk 500 1 := by
  have hg : localBrakeGuard stHugeJerk 500 1 := by
    refine ⟨?_, by decide, ?_, by norm_num⟩
    · rintro ⟨-, hcool, -⟩
      simp only [stHugeJerk, st0] at hcool
      omega
    · norm_num [localJerk, stHugeJerk, st0]
  exact ⟨(local_detector_amended stHugeJerk 500 1).2.2.mpr hg, hg⟩

end Luma
